import Mathlib

/-!
Shallow embedding of the streamlit-with-recognition repository
(src/app.py and src/utils.py).

The repository is UI glue around an external pretrained YOLO detector:
`utils.py` defines `_display_detected_frames` (resize, predict, draw,
update the single streaming display slot), `load_model` (cached by
`st.cache_resource`), and the three source handlers
`infer_uploaded_image`, `infer_uploaded_video`, `infer_uploaded_webcam`;
`app.py` is the top-level script that reads the sidebar configuration,
loads the model inside a try/except, and dispatches on the selected
data source.

The embedding makes the observable effects explicit: counts of capture
opens and releases, inference invocations, updates of the streaming
display slot, in-page error reports (`st.error`), the confidence value
passed to each predict call, and the box lists of each Detection Result.
Exceptions are modelled with explicit error values; a raise that the
Python code does not catch is reported as a distinct outcome.
-/

/-- A raster frame (width, height, and a tag distinguishing frames).
Pixel contents are irrelevant to the control logic, so they are
abstracted into the tag. -/
structure Frame where
  width : Nat
  height : Nat
  tag : Nat
deriving DecidableEq

/-- One detected bounding box: position, size, class index, confidence. -/
structure Box where
  x : ℚ
  y : ℚ
  w : ℚ
  h : ℚ
  cls : Nat
  conf : ℚ
deriving DecidableEq

/-- Modelled from the spec: the pretrained YOLO detection model is an
external collaborator (ultralytics), out of scope of src/.  Per the spec
it is an opaque function from an image to candidate boxes; `candidates`
returns `none` when inference raises on malformed input. -/
structure YOLOModel where
  candidates : Frame → Option (List Box)

/-- Modelled from the spec: `model.predict(image, conf=conf)` delegates
confidence filtering entirely to the model post-processing, which keeps
exactly the candidate boxes whose confidence reaches the threshold.
A `none` candidate set models the predict call raising. -/
def YOLOModel.predict (m : YOLOModel) (image : Frame) (conf : ℚ) :
    Except String (List Box) :=
  match m.candidates image with
  | none => Except.error "inference raised"
  | some bs => Except.ok (bs.filter (fun b => decide (conf ≤ b.conf)))

/-- The observable effects of one run: capture opens/releases, inference
invocations, updates of the single streaming display slot (`st_frame`),
result image displays of the image mode (`col2`), in-page error reports
(`st.error`), the confidence value passed at each predict call, and the
box list of each Detection Result produced. -/
structure Effects where
  openCalls : Nat
  releaseCalls : Nat
  inferenceCalls : Nat
  frameDisplayUpdates : Nat
  resultImageDisplays : Nat
  errorReports : Nat
  confsUsed : List ℚ
  results : List (List Box)
deriving DecidableEq

/-- Effects at the start of a run: nothing has happened yet. -/
def noEffects : Effects := ⟨0, 0, 0, 0, 0, 0, [], []⟩

/-- utils.py `cv2.resize(image, (720, int(720 * (9 / 16))))`:
every video/camera frame is resized to 720x405 before inference. -/
def resizeFrame (f : Frame) : Frame := ⟨720, 405, f.tag⟩

/-- utils.py `_display_detected_frames`: resize the frame, call
`model.predict(image, conf=conf)`, plot, and update the single
streaming slot `st_frame`.  If predict raises, the exception escapes
this function (the slot is not updated); otherwise one slot update and
one recorded Detection Result. -/
def _display_detected_frames (conf : ℚ) (m : YOLOModel) (eff : Effects)
    (image : Frame) : Effects × Option String :=
  match m.predict (resizeFrame image) conf with
  | Except.error e =>
      ({ eff with
          inferenceCalls := eff.inferenceCalls + 1,
          confsUsed := eff.confsUsed ++ [conf] }, some e)
  | Except.ok boxes =>
      ({ eff with
          inferenceCalls := eff.inferenceCalls + 1,
          confsUsed := eff.confsUsed ++ [conf],
          frameDisplayUpdates := eff.frameDisplayUpdates + 1,
          results := eff.results ++ [boxes] }, none)

/-- How the while-loop of `infer_uploaded_video` / `infer_uploaded_webcam`
ends: `exhausted` when `vid_cap.read()` fails (end of stream, disconnect)
so the code takes the `vid_cap.release(); break` branch; `raised` when
the per-frame inference call raises and the exception escapes the loop. -/
inductive LoopExit
  | exhausted
  | raised
deriving DecidableEq

/-- The shared frame loop of utils.py lines 113-119 and 134-140:
`success, image = vid_cap.read()`; on success run
`_display_detected_frames`; on failure `vid_cap.release(); break`.
`frames` is the list of reads that will still succeed, in order; when it
is empty the next read fails.  A raise inside the loop body escapes
without releasing the capture. -/
def frameLoop (conf : ℚ) (m : YOLOModel) (frames : List Frame)
    (eff : Effects) : Effects × LoopExit :=
  match frames with
  | [] => ({ eff with releaseCalls := eff.releaseCalls + 1 }, LoopExit.exhausted)
  | f :: rest =>
    match _display_detected_frames conf m eff f with
    | (eff2, some _) => (eff2, LoopExit.raised)
    | (eff2, none) => frameLoop conf m rest eff2

/-- Final state of a source run, following the state machine of the spec:
`notStarted` when the loop body was never entered (nothing uploaded,
button not pressed, or the capture could not be opened), plus the three
terminal states. -/
inductive RunState
  | notStarted
  | exhausted
  | stopped
  | errored
deriving DecidableEq

/-- utils.py `infer_uploaded_video`: when a video is uploaded and the
start button is pressed, the bytes are written to a temp file and
`cv2.VideoCapture(tfile.name)` is constructed (one open attempt).  If the
file cannot be opened/decoded, `vid_cap.isOpened()` is false, so the
while loop never runs: no read, no error report, no release (OpenCV does
not raise here).  Otherwise the frame loop runs; an exception escaping
the loop is caught by the surrounding `except` and reported with
`st.error`, without releasing the capture. -/
def infer_uploaded_video (conf : ℚ) (m : YOLOModel)
    (uploaded pressed openable : Bool) (frames : List Frame) :
    Effects × RunState :=
  if uploaded && pressed then
    let eff0 : Effects := ⟨1, 0, 0, 0, 0, 0, [], []⟩
    if openable then
      match frameLoop conf m frames eff0 with
      | (eff, LoopExit.exhausted) => (eff, RunState.exhausted)
      | (eff, LoopExit.raised) =>
          ({ eff with errorReports := eff.errorReports + 1 }, RunState.errored)
    else
      (eff0, RunState.notStarted)
  else (noEffects, RunState.notStarted)

/-- utils.py `infer_uploaded_webcam`: `flag = st.button("停止运行")` is
read once per script run and never changes inside the loop;
`cv2.VideoCapture(0)` is constructed unconditionally (one open).  With
the stop flag set, `while not flag` never runs the body: no read and no
release.  Otherwise the loop runs until a read fails (release + break)
or inference raises (caught by the `except`, reported, no release). -/
def infer_uploaded_webcam (conf : ℚ) (m : YOLOModel) (stopFlag : Bool)
    (frames : List Frame) : Effects × RunState :=
  let eff0 : Effects := ⟨1, 0, 0, 0, 0, 0, [], []⟩
  if stopFlag then (eff0, RunState.stopped)
  else
    match frameLoop conf m frames eff0 with
    | (eff, LoopExit.exhausted) => (eff, RunState.exhausted)
    | (eff, LoopExit.raised) =>
        ({ eff with errorReports := eff.errorReports + 1 }, RunState.errored)

/-- Outcome of the single-image run: `notRun` when no image is uploaded
or the button is not pressed; `completed` on success; `uncaughtRaise`
when `model.predict` raises — in the source this call (utils.py line 74)
is outside every try block, so the exception propagates out of
`infer_uploaded_image` uncaught. -/
inductive ImageOutcome
  | notRun
  | completed
  | uncaughtRaise
deriving DecidableEq

/-- utils.py `infer_uploaded_image`: with an image uploaded and the
start button pressed, `model.predict(uploaded_image, conf=conf)` runs on
the image at native resolution (no resize), then the annotated result is
shown in the second column.  The only try/except in this path wraps the
detail expander that iterates the boxes, which cannot raise in this
model; the predict call itself is unprotected. -/
def infer_uploaded_image (conf : ℚ) (m : YOLOModel)
    (uploaded pressed : Bool) (img : Frame) : Effects × ImageOutcome :=
  if uploaded && pressed then
    match m.predict img conf with
    | Except.error _ =>
        (⟨0, 0, 1, 0, 0, 0, [conf], []⟩, ImageOutcome.uncaughtRaise)
    | Except.ok boxes =>
        (⟨0, 0, 1, 0, 1, 0, [conf], [boxes]⟩, ImageOutcome.completed)
  else (noEffects, ImageOutcome.notRun)

/-- Handle to a loaded detection model; `loadId` is the serial number of
the disk load that constructed it, so two handles are
reference-identical exactly when they are equal as values. -/
structure ModelHandle where
  path : String
  loadId : Nat
deriving DecidableEq

/-- Modelled from the spec: the process-wide cache that
`@st.cache_resource` (an external streamlit decorator) maintains for
`load_model` — a map from the path argument to the previously
constructed handle, plus the count of actual disk loads. -/
structure CacheState where
  entries : List (String × ModelHandle)
  diskLoads : Nat
deriving DecidableEq

/-- The cache state at process start: empty, zero disk loads. -/
def emptyCache : CacheState := ⟨[], 0⟩

/-- utils.py `load_model` under `@st.cache_resource`: a cache hit
returns the previously constructed handle and leaves the state
untouched; a miss constructs `YOLO(model_path)` (one disk load) and
caches the handle. -/
def load_model (s : CacheState) (path : String) : ModelHandle × CacheState :=
  match s.entries.lookup path with
  | some h => (h, s)
  | none =>
      let h : ModelHandle := ⟨path, s.diskLoads⟩
      (h, ⟨(path, h) :: s.entries, s.diskLoads + 1⟩)

/-- The three entries of `config.SOURCES_LIST` dispatched by app.py. -/
inductive DataSource
  | imageSrc
  | videoSrc
  | cameraSrc
deriving DecidableEq

/-- app.py line 99: `confidence = float(st.sidebar.slider(…, 30, 100, 50)) / 100`.
The slider yields an integer between 30 and 100. -/
def confidence (sliderValue : Nat) : ℚ := (sliderValue : ℚ) / 100

/-- Result of one top-level script run of app.py: how many times the
model-load error was reported, whether a usable model handle exists,
the effects of the dispatched source handler, and whether the dispatch
raised an uncaught NameError (referencing the undefined name `model`
after a failed load). -/
structure AppRun where
  loadErrorReports : Nat
  handleLoaded : Bool
  eff : Effects
  nameErrorRaised : Bool
deriving DecidableEq

/-- app.py top level: `model = load_model(model_path)` inside
try/except — a load failure is reported once with `st.error` and leaves
the name `model` unbound.  The script then dispatches on the selected
source unconditionally; with no model bound, evaluating the argument
`model` raises an uncaught NameError before any handler (and hence any
inference call) runs. -/
def app_run (loadOk : Bool) (sliderValue : Nat) (src : DataSource)
    (m : YOLOModel) (uploaded pressed stopFlag openable : Bool)
    (frames : List Frame) (img : Frame) : AppRun :=
  let conf := confidence sliderValue
  if loadOk then
    match src with
    | DataSource.imageSrc =>
        ⟨0, true, (infer_uploaded_image conf m uploaded pressed img).1, false⟩
    | DataSource.videoSrc =>
        ⟨0, true, (infer_uploaded_video conf m uploaded pressed openable frames).1, false⟩
    | DataSource.cameraSrc =>
        ⟨0, true, (infer_uploaded_webcam conf m stopFlag frames).1, false⟩
  else
    ⟨1, false, noEffects, true⟩

/-- A stub model returning zero boxes for every frame (the spec test
scenario of claim C1). -/
def stubModel : YOLOModel := ⟨fun _ => some []⟩

/-- A model whose predict call always raises. -/
def raisingModel : YOLOModel := ⟨fun _ => none⟩

/-- A model returning one high-confidence and one low-confidence box. -/
def demoModel : YOLOModel :=
  ⟨fun _ => some [⟨0, 0, 10, 10, 0, 9 / 10⟩, ⟨1, 1, 5, 5, 1, 1 / 10⟩]⟩

/-- A sample 720p frame. -/
def sampleFrame : Frame := ⟨1280, 720, 0⟩

/-- A ten-frame test video (the concrete scenario of claim C1). -/
def tenFrames : List Frame := (List.range 10).map (fun i => ⟨1280, 720, i⟩)

/-- When every remaining read decodes and inference succeeds on each
frame, the loop walks all frames, updates the slot once per frame,
reports no error, and releases the capture exactly once at the failed
read that ends the stream. -/
theorem frameLoop_ok_counts (conf : ℚ) (m : YOLOModel) (frames : List Frame)
    (eff : Effects) (h : ∀ f ∈ frames, (m.candidates (resizeFrame f)).isSome) :
    (frameLoop conf m frames eff).2 = LoopExit.exhausted ∧
    (frameLoop conf m frames eff).1.inferenceCalls = eff.inferenceCalls + frames.length ∧
    (frameLoop conf m frames eff).1.frameDisplayUpdates = eff.frameDisplayUpdates + frames.length ∧
    (frameLoop conf m frames eff).1.releaseCalls = eff.releaseCalls + 1 ∧
    (frameLoop conf m frames eff).1.errorReports = eff.errorReports ∧
    (frameLoop conf m frames eff).1.openCalls = eff.openCalls := by
  induction frames generalizing eff with
  | nil => simp [frameLoop]
  | cons f rest ih =>
    obtain ⟨bs, hbs⟩ := Option.isSome_iff_exists.mp (h f (List.mem_cons_self f rest))
    have hrest : ∀ g ∈ rest, (m.candidates (resizeFrame g)).isSome :=
      fun g hg => h g (List.mem_cons_of_mem f hg)
    have hstep : frameLoop conf m (f :: rest) eff =
        frameLoop conf m rest
          { eff with
              inferenceCalls := eff.inferenceCalls + 1,
              confsUsed := eff.confsUsed ++ [conf],
              frameDisplayUpdates := eff.frameDisplayUpdates + 1,
              results := eff.results ++ [bs.filter (fun b => decide (conf ≤ b.conf))] } := by
      simp [frameLoop, _display_detected_frames, YOLOModel.predict, hbs]
    rw [hstep]
    rcases ih _ hrest with ⟨h1, h2, h3, h4, h5, h6⟩
    refine ⟨h1, ?_, ?_, ?_, ?_, ?_⟩ <;>
      simp only [h2, h3, h4, h5, h6, List.length_cons] <;> omega

/-- When inference raises on the very first frame, the loop ends with
`raised` after one inference call, touching neither the display slot nor
the release counter. -/
theorem frameLoop_raise_head (conf : ℚ) (m : YOLOModel) (f : Frame)
    (rest : List Frame) (eff : Effects)
    (hbad : m.candidates (resizeFrame f) = none) :
    frameLoop conf m (f :: rest) eff =
      ({ eff with
          inferenceCalls := eff.inferenceCalls + 1,
          confsUsed := eff.confsUsed ++ [conf] }, LoopExit.raised) := by
  simp [frameLoop, _display_detected_frames, YOLOModel.predict, hbad]

/-- Every Detection Result the loop appends is a confidence-filtered
candidate list, so the confidence invariant is preserved. -/
theorem frameLoop_results_conf (conf : ℚ) (m : YOLOModel) (frames : List Frame)
    (eff : Effects) (h : ∀ bs ∈ eff.results, ∀ b ∈ bs, conf ≤ b.conf) :
    ∀ bs ∈ (frameLoop conf m frames eff).1.results, ∀ b ∈ bs, conf ≤ b.conf := by
  induction frames generalizing eff with
  | nil => simpa [frameLoop] using h
  | cons f rest ih =>
    cases hc : m.candidates (resizeFrame f) with
    | none =>
        simpa [frameLoop, _display_detected_frames, YOLOModel.predict, hc] using h
    | some bs0 =>
        have hstep : frameLoop conf m (f :: rest) eff =
            frameLoop conf m rest
              { eff with
                  inferenceCalls := eff.inferenceCalls + 1,
                  confsUsed := eff.confsUsed ++ [conf],
                  frameDisplayUpdates := eff.frameDisplayUpdates + 1,
                  results := eff.results ++ [bs0.filter (fun b => decide (conf ≤ b.conf))] } := by
          simp [frameLoop, _display_detected_frames, YOLOModel.predict, hc]
        rw [hstep]
        apply ih
        intro bs hbs b hb
        rcases List.mem_append.mp hbs with hmem | hnew
        · exact h bs hmem b hb
        · have hbs0 : bs = bs0.filter (fun b => decide (conf ≤ b.conf)) := by
            simpa using hnew
          subst hbs0
          exact of_decide_eq_true (List.mem_filter.mp hb).2

/-- Every confidence value the loop passes to a predict call is the one
threshold it was given. -/
theorem frameLoop_confs (conf : ℚ) (m : YOLOModel) (frames : List Frame)
    (eff : Effects) (h : ∀ c ∈ eff.confsUsed, c = conf) :
    ∀ c ∈ (frameLoop conf m frames eff).1.confsUsed, c = conf := by
  induction frames generalizing eff with
  | nil => simpa [frameLoop] using h
  | cons f rest ih =>
    cases hc : m.candidates (resizeFrame f) with
    | none =>
        simp only [frameLoop, _display_detected_frames, YOLOModel.predict, hc]
        intro c hcmem
        rcases List.mem_append.mp hcmem with hmem | hnew
        · exact h c hmem
        · simpa using hnew
    | some bs0 =>
        have hstep : frameLoop conf m (f :: rest) eff =
            frameLoop conf m rest
              { eff with
                  inferenceCalls := eff.inferenceCalls + 1,
                  confsUsed := eff.confsUsed ++ [conf],
                  frameDisplayUpdates := eff.frameDisplayUpdates + 1,
                  results := eff.results ++ [bs0.filter (fun b => decide (conf ≤ b.conf))] } := by
          simp [frameLoop, _display_detected_frames, YOLOModel.predict, hc]
        rw [hstep]
        apply ih
        intro c hcmem
        rcases List.mem_append.mp hcmem with hmem | hnew
        · exact h c hmem
        · simpa using hnew

/-- C1: for a video source with N decodable frames (inference succeeding
on each) and no user-initiated stop, `infer_uploaded_video` performs
exactly N inference calls, one streaming-slot update per frame, reports
zero errors, releases the decoder exactly once, and ends in the
EXHAUSTED state. -/
theorem C1_video_exhaustion (conf : ℚ) (m : YOLOModel) (frames : List Frame)
    (h : ∀ f ∈ frames, (m.candidates (resizeFrame f)).isSome) :
    (infer_uploaded_video conf m true true true frames).1.inferenceCalls = frames.length ∧
    (infer_uploaded_video conf m true true true frames).1.frameDisplayUpdates = frames.length ∧
    (infer_uploaded_video conf m true true true frames).1.errorReports = 0 ∧
    (infer_uploaded_video conf m true true true frames).1.releaseCalls = 1 ∧
    (infer_uploaded_video conf m true true true frames).2 = RunState.exhausted := by
  rcases frameLoop_ok_counts conf m frames ⟨1, 0, 0, 0, 0, 0, [], []⟩ h with
    ⟨h1, h2, h3, h4, h5, _⟩
  have hrun : infer_uploaded_video conf m true true true frames =
      ((frameLoop conf m frames ⟨1, 0, 0, 0, 0, 0, [], []⟩).1,
        RunState.exhausted) := by
    simp only [infer_uploaded_video, Bool.and_self, if_true]
    cases hl : frameLoop conf m frames ⟨1, 0, 0, 0, 0, 0, [], []⟩ with
    | mk eff ex =>
        cases ex with
        | exhausted => simp
        | raised => rw [hl] at h1; simp at h1
  rw [hrun]
  refine ⟨?_, ?_, ?_, ?_, rfl⟩ <;> simp [h2, h3, h4, h5]

/-- Witness for C1: the spec scenario — a ten-frame 720p video, a stub
model returning zero boxes, confidence one half — yields ten inference
calls, ten slot updates, zero error reports, one release, EXHAUSTED. -/
theorem C1_video_exhaustion_witness :
    (∀ f ∈ tenFrames, (stubModel.candidates (resizeFrame f)).isSome) ∧
    ((infer_uploaded_video (1 / 2) stubModel true true true tenFrames).1.inferenceCalls = tenFrames.length ∧
     (infer_uploaded_video (1 / 2) stubModel true true true tenFrames).1.frameDisplayUpdates = tenFrames.length ∧
     (infer_uploaded_video (1 / 2) stubModel true true true tenFrames).1.errorReports = 0 ∧
     (infer_uploaded_video (1 / 2) stubModel true true true tenFrames).1.releaseCalls = 1 ∧
     (infer_uploaded_video (1 / 2) stubModel true true true tenFrames).2 = RunState.exhausted) :=
  ⟨by decide, C1_video_exhaustion (1 / 2) stubModel tenFrames (by decide)⟩

/-- A model that raises on frames tagged 0 and returns zero boxes
otherwise (used to exercise the inference-exception path). -/
def mixedModel : YOLOModel := ⟨fun f => if f.tag == 0 then none else some []⟩

/-- With every read decoding and inference succeeding, the started
video run is exactly the frame loop run to exhaustion. -/
theorem infer_uploaded_video_ok_run (conf : ℚ) (m : YOLOModel)
    (frames : List Frame)
    (h : ∀ g ∈ frames, (m.candidates (resizeFrame g)).isSome) :
    infer_uploaded_video conf m true true true frames =
      ((frameLoop conf m frames ⟨1, 0, 0, 0, 0, 0, [], []⟩).1,
        RunState.exhausted) := by
  have h1 := (frameLoop_ok_counts conf m frames ⟨1, 0, 0, 0, 0, 0, [], []⟩ h).1
  simp only [infer_uploaded_video, Bool.and_self, if_true]
  cases hl : frameLoop conf m frames ⟨1, 0, 0, 0, 0, 0, [], []⟩ with
  | mk eff ex =>
      cases ex with
      | exhausted => simp
      | raised => rw [hl] at h1; simp at h1

/-- With the stop flag unset and every read decoding and inference
succeeding, the camera run is exactly the frame loop run to the failed
read. -/
theorem infer_uploaded_webcam_ok_run (conf : ℚ) (m : YOLOModel)
    (frames : List Frame)
    (h : ∀ g ∈ frames, (m.candidates (resizeFrame g)).isSome) :
    infer_uploaded_webcam conf m false frames =
      ((frameLoop conf m frames ⟨1, 0, 0, 0, 0, 0, [], []⟩).1,
        RunState.exhausted) := by
  have h1 := (frameLoop_ok_counts conf m frames ⟨1, 0, 0, 0, 0, 0, [], []⟩ h).1
  simp only [infer_uploaded_webcam, Bool.false_eq_true, if_false]
  cases hl : frameLoop conf m frames ⟨1, 0, 0, 0, 0, 0, [], []⟩ with
  | mk eff ex =>
      cases ex with
      | exhausted => simp
      | raised => rw [hl] at h1; simp at h1

/-- A started video run whose first frame makes inference raise: the
exception is caught and reported, the run ends in ERROR, and the opened
capture is never released. -/
theorem infer_uploaded_video_raise_run (conf : ℚ) (m : YOLOModel) (f : Frame)
    (rest : List Frame) (hbad : m.candidates (resizeFrame f) = none) :
    infer_uploaded_video conf m true true true (f :: rest) =
      (⟨1, 0, 1, 0, 0, 1, [conf], []⟩, RunState.errored) := by
  simp only [infer_uploaded_video, Bool.and_self, if_true]
  rw [frameLoop_raise_head conf m f rest _ hbad]
  simp

/-- A camera run (stop flag unset) whose first frame makes inference
raise: the exception is caught and reported, the run ends in ERROR, and
the opened device is never released. -/
theorem infer_uploaded_webcam_raise_run (conf : ℚ) (m : YOLOModel) (f : Frame)
    (rest : List Frame) (hbad : m.candidates (resizeFrame f) = none) :
    infer_uploaded_webcam conf m false (f :: rest) =
      (⟨1, 0, 1, 0, 0, 1, [conf], []⟩, RunState.errored) := by
  simp only [infer_uploaded_webcam, Bool.false_eq_true, if_false]
  rw [frameLoop_raise_head conf m f rest _ hbad]
  simp

/-- C2 counterexample: in the started video run on a one-frame video
whose inference call raises, the capture is opened once but released
zero times, so release calls do not match open calls on this exit
path. -/
theorem C2_counterexample :
    (infer_uploaded_video (1 / 2) raisingModel true true true [sampleFrame]).1.openCalls = 1 ∧
    (infer_uploaded_video (1 / 2) raisingModel true true true [sampleFrame]).1.releaseCalls = 0 := by
  decide

/-- C2 (amended): the capture resource is released exactly once on the
normal exhaustion / read-failure exits of the video and camera loops
(matching the one open call); but on the error exit caused by a
per-frame inference exception, on the camera stop path, and for a video
that cannot be opened, the opened resource is never released (zero
release calls against one open call). -/
theorem C2_release_paths (conf : ℚ) (m : YOLOModel) (frames : List Frame)
    (f : Frame)
    (hall : ∀ g ∈ frames, (m.candidates (resizeFrame g)).isSome)
    (hbad : m.candidates (resizeFrame f) = none) :
    ((infer_uploaded_video conf m true true true frames).1.releaseCalls = 1 ∧
     (infer_uploaded_video conf m true true true frames).1.openCalls = 1) ∧
    ((infer_uploaded_webcam conf m false frames).1.releaseCalls = 1 ∧
     (infer_uploaded_webcam conf m false frames).1.openCalls = 1) ∧
    ((infer_uploaded_video conf m true true true [f]).1.releaseCalls = 0 ∧
     (infer_uploaded_video conf m true true true [f]).1.openCalls = 1) ∧
    ((infer_uploaded_webcam conf m true frames).1.releaseCalls = 0 ∧
     (infer_uploaded_webcam conf m true frames).1.openCalls = 1) ∧
    ((infer_uploaded_video conf m true true false frames).1.releaseCalls = 0 ∧
     (infer_uploaded_video conf m true true false frames).1.openCalls = 1) := by
  rcases frameLoop_ok_counts conf m frames ⟨1, 0, 0, 0, 0, 0, [], []⟩ hall with
    ⟨_, _, _, h4, _, h6⟩
  refine ⟨?_, ?_, ?_, ?_, ?_⟩
  · rw [infer_uploaded_video_ok_run conf m frames hall]
    exact ⟨by simpa using h4, by simpa using h6⟩
  · rw [infer_uploaded_webcam_ok_run conf m frames hall]
    exact ⟨by simpa using h4, by simpa using h6⟩
  · rw [infer_uploaded_video_raise_run conf m f [] hbad]
    exact ⟨rfl, rfl⟩
  · simp [infer_uploaded_webcam]
  · simp [infer_uploaded_video]

/-- Witness for C2: one good frame (tag 1) under the mixed model, and
the raising frame `sampleFrame` (tag 0). -/
theorem C2_release_paths_witness :
    (∀ g ∈ [Frame.mk 1280 720 1], (mixedModel.candidates (resizeFrame g)).isSome) ∧
    (mixedModel.candidates (resizeFrame sampleFrame) = none) ∧
    (((infer_uploaded_video (1 / 2) mixedModel true true true [Frame.mk 1280 720 1]).1.releaseCalls = 1 ∧
      (infer_uploaded_video (1 / 2) mixedModel true true true [Frame.mk 1280 720 1]).1.openCalls = 1) ∧
     ((infer_uploaded_webcam (1 / 2) mixedModel false [Frame.mk 1280 720 1]).1.releaseCalls = 1 ∧
      (infer_uploaded_webcam (1 / 2) mixedModel false [Frame.mk 1280 720 1]).1.openCalls = 1) ∧
     ((infer_uploaded_video (1 / 2) mixedModel true true true [sampleFrame]).1.releaseCalls = 0 ∧
      (infer_uploaded_video (1 / 2) mixedModel true true true [sampleFrame]).1.openCalls = 1) ∧
     ((infer_uploaded_webcam (1 / 2) mixedModel true [Frame.mk 1280 720 1]).1.releaseCalls = 0 ∧
      (infer_uploaded_webcam (1 / 2) mixedModel true [Frame.mk 1280 720 1]).1.openCalls = 1) ∧
     ((infer_uploaded_video (1 / 2) mixedModel true true false [Frame.mk 1280 720 1]).1.releaseCalls = 0 ∧
      (infer_uploaded_video (1 / 2) mixedModel true true false [Frame.mk 1280 720 1]).1.openCalls = 1)) :=
  ⟨by decide, by decide,
    C2_release_paths (1 / 2) mixedModel [Frame.mk 1280 720 1] sampleFrame
      (by decide) (by decide)⟩

/-- C3 counterexample: with the stop flag set at loop entry, the camera
run ends STOPPED having processed zero frames, but the opened device is
released zero times — not exactly once as the claim requires. -/
theorem C3_counterexample :
    (infer_uploaded_webcam (1 / 2) stubModel true [sampleFrame]).2 = RunState.stopped ∧
    (infer_uploaded_webcam (1 / 2) stubModel true [sampleFrame]).1.openCalls = 1 ∧
    (infer_uploaded_webcam (1 / 2) stubModel true [sampleFrame]).1.releaseCalls = 0 := by
  decide

/-- C3 (amended): the stop signal is read once per script run, before
the loop, and its value does not change between iterations.  When it is
set, no further frame is processed (zero inference calls) and the run
ends STOPPED, but the opened device is NOT released; the device is
released exactly once only via the read-failure exit taken when the
signal is unset. -/
theorem C3_stop_behavior (conf : ℚ) (m : YOLOModel) (frames : List Frame)
    (hall : ∀ g ∈ frames, (m.candidates (resizeFrame g)).isSome) :
    ((infer_uploaded_webcam conf m true frames).2 = RunState.stopped ∧
     (infer_uploaded_webcam conf m true frames).1.inferenceCalls = 0 ∧
     (infer_uploaded_webcam conf m true frames).1.releaseCalls = 0) ∧
    ((infer_uploaded_webcam conf m false frames).2 = RunState.exhausted ∧
     (infer_uploaded_webcam conf m false frames).1.releaseCalls = 1) := by
  rcases frameLoop_ok_counts conf m frames ⟨1, 0, 0, 0, 0, 0, [], []⟩ hall with
    ⟨_, _, _, h4, _, _⟩
  refine ⟨by simp [infer_uploaded_webcam], ?_⟩
  rw [infer_uploaded_webcam_ok_run conf m frames hall]
  exact ⟨rfl, by simpa using h4⟩

/-- Witness for C3: stub model, one available frame. -/
theorem C3_stop_behavior_witness :
    (∀ g ∈ [sampleFrame], (stubModel.candidates (resizeFrame g)).isSome) ∧
    (((infer_uploaded_webcam (1 / 2) stubModel true [sampleFrame]).2 = RunState.stopped ∧
      (infer_uploaded_webcam (1 / 2) stubModel true [sampleFrame]).1.inferenceCalls = 0 ∧
      (infer_uploaded_webcam (1 / 2) stubModel true [sampleFrame]).1.releaseCalls = 0) ∧
     ((infer_uploaded_webcam (1 / 2) stubModel false [sampleFrame]).2 = RunState.exhausted ∧
      (infer_uploaded_webcam (1 / 2) stubModel false [sampleFrame]).1.releaseCalls = 1)) :=
  ⟨by decide, C3_stop_behavior (1 / 2) stubModel [sampleFrame] (by decide)⟩

/-- Every box of every Detection Result of an image run clears the
threshold passed to that run. -/
theorem infer_uploaded_image_results (conf : ℚ) (m : YOLOModel)
    (uploaded pressed : Bool) (img : Frame) :
    ∀ bs ∈ (infer_uploaded_image conf m uploaded pressed img).1.results,
      ∀ b ∈ bs, conf ≤ b.conf := by
  cases hup : uploaded && pressed with
  | false => simp [infer_uploaded_image, hup, noEffects]
  | true =>
    cases hc : m.candidates img with
    | none => simp [infer_uploaded_image, hup, YOLOModel.predict, hc]
    | some bs0 =>
      simp only [infer_uploaded_image, hup, YOLOModel.predict, hc, if_true]
      intro bs hbs b hb
      have hfil : bs = bs0.filter (fun b => decide (conf ≤ b.conf)) := by
        simpa using hbs
      subst hfil
      exact of_decide_eq_true (List.mem_filter.mp hb).2

/-- Every box of every Detection Result of a video run clears the
threshold passed to that run. -/
theorem infer_uploaded_video_results (conf : ℚ) (m : YOLOModel)
    (uploaded pressed openable : Bool) (frames : List Frame) :
    ∀ bs ∈ (infer_uploaded_video conf m uploaded pressed openable frames).1.results,
      ∀ b ∈ bs, conf ≤ b.conf := by
  have hbase : ∀ bs ∈ ([] : List (List Box)), ∀ b ∈ bs, conf ≤ b.conf := by simp
  cases hup : uploaded && pressed with
  | false => simp [infer_uploaded_video, hup, noEffects]
  | true =>
    cases hop : openable with
    | false => simp [infer_uploaded_video, hup]
    | true =>
      have hloop := frameLoop_results_conf conf m frames ⟨1, 0, 0, 0, 0, 0, [], []⟩ hbase
      simp only [infer_uploaded_video, hup, if_true]
      cases hl : frameLoop conf m frames ⟨1, 0, 0, 0, 0, 0, [], []⟩ with
      | mk eff ex =>
        rw [hl] at hloop
        cases ex with
        | exhausted => simpa using hloop
        | raised => simpa using hloop

/-- Every box of every Detection Result of a camera run clears the
threshold passed to that run. -/
theorem infer_uploaded_webcam_results (conf : ℚ) (m : YOLOModel)
    (stopFlag : Bool) (frames : List Frame) :
    ∀ bs ∈ (infer_uploaded_webcam conf m stopFlag frames).1.results,
      ∀ b ∈ bs, conf ≤ b.conf := by
  have hbase : ∀ bs ∈ ([] : List (List Box)), ∀ b ∈ bs, conf ≤ b.conf := by simp
  cases hsf : stopFlag with
  | true => simp [infer_uploaded_webcam]
  | false =>
    have hloop := frameLoop_results_conf conf m frames ⟨1, 0, 0, 0, 0, 0, [], []⟩ hbase
    simp only [infer_uploaded_webcam, Bool.false_eq_true, if_false]
    cases hl : frameLoop conf m frames ⟨1, 0, 0, 0, 0, 0, [], []⟩ with
    | mk eff ex =>
      rw [hl] at hloop
      cases ex with
      | exhausted => simpa using hloop
      | raised => simpa using hloop

/-- C4: for every confidence threshold t in [0,1], every bounding box in
every Detection Result has confidence at least t, in image mode, video
mode, and camera mode alike. -/
theorem C4_confidence_invariant (t : ℚ) (h0 : 0 ≤ t) (h1 : t ≤ 1)
    (m : YOLOModel) (uploaded pressed stopFlag openable : Bool)
    (frames : List Frame) (img : Frame) :
    (∀ bs ∈ (infer_uploaded_image t m uploaded pressed img).1.results,
        ∀ b ∈ bs, t ≤ b.conf) ∧
    (∀ bs ∈ (infer_uploaded_video t m uploaded pressed openable frames).1.results,
        ∀ b ∈ bs, t ≤ b.conf) ∧
    (∀ bs ∈ (infer_uploaded_webcam t m stopFlag frames).1.results,
        ∀ b ∈ bs, t ≤ b.conf) :=
  ⟨infer_uploaded_image_results t m uploaded pressed img,
   infer_uploaded_video_results t m uploaded pressed openable frames,
   infer_uploaded_webcam_results t m stopFlag frames⟩

/-- Witness for C4: threshold one half, a model producing one box above
and one below the threshold, all three modes started. -/
theorem C4_confidence_invariant_witness :
    (0 : ℚ) ≤ 1 / 2 ∧ (1 / 2 : ℚ) ≤ 1 ∧
    ((∀ bs ∈ (infer_uploaded_image (1 / 2) demoModel true true sampleFrame).1.results,
        ∀ b ∈ bs, (1 / 2 : ℚ) ≤ b.conf) ∧
     (∀ bs ∈ (infer_uploaded_video (1 / 2) demoModel true true true [sampleFrame]).1.results,
        ∀ b ∈ bs, (1 / 2 : ℚ) ≤ b.conf) ∧
     (∀ bs ∈ (infer_uploaded_webcam (1 / 2) demoModel false [sampleFrame]).1.results,
        ∀ b ∈ bs, (1 / 2 : ℚ) ≤ b.conf)) :=
  ⟨by norm_num, by norm_num,
    C4_confidence_invariant (1 / 2) (by norm_num) (by norm_num) demoModel
      true true false true [sampleFrame] sampleFrame⟩

/-- C5: calling `load_model` twice with the same path returns the same
handle, leaves the cache state (including the cached handle) untouched,
performs at most one disk load for the path, and from a fresh process
the path is loaded from disk exactly once. -/
theorem C5_model_cache (s : CacheState) (path : String) :
    (load_model (load_model s path).2 path).1 = (load_model s path).1 ∧
    (load_model (load_model s path).2 path).2 = (load_model s path).2 ∧
    (load_model s path).2.diskLoads ≤ s.diskLoads + 1 ∧
    (load_model emptyCache path).2.diskLoads = 1 := by
  cases hl : s.entries.lookup path with
  | some h =>
    have hfst : load_model s path = (h, s) := by simp [load_model, hl]
    refine ⟨?_, ?_, ?_, ?_⟩
    · rw [hfst]; exact congrArg Prod.fst hfst
    · rw [hfst]; exact congrArg Prod.snd hfst
    · rw [hfst]; exact Nat.le_succ s.diskLoads
    · simp [load_model, emptyCache, List.lookup]
  | none =>
    have hfst : load_model s path =
        (⟨path, s.diskLoads⟩,
          ⟨(path, ⟨path, s.diskLoads⟩) :: s.entries, s.diskLoads + 1⟩) := by
      simp [load_model, hl]
    have hsnd : load_model
        (⟨(path, (⟨path, s.diskLoads⟩ : ModelHandle)) :: s.entries,
          s.diskLoads + 1⟩ : CacheState) path =
        (⟨path, s.diskLoads⟩,
          ⟨(path, ⟨path, s.diskLoads⟩) :: s.entries, s.diskLoads + 1⟩) := by
      simp [load_model, List.lookup]
    refine ⟨?_, ?_, ?_, ?_⟩
    · rw [hfst, hsnd]
    · rw [hfst, hsnd]
    · rw [hfst]
    · simp [load_model, emptyCache, List.lookup]

/-- C6 counterexample: in the single-image run, a raising inference call
ends as an uncaught exception with zero in-page error reports, so the
error is neither caught nor reported there. -/
theorem C6_counterexample :
    (infer_uploaded_image (1 / 2) raisingModel true true sampleFrame).2 =
      ImageOutcome.uncaughtRaise ∧
    (infer_uploaded_image (1 / 2) raisingModel true true sampleFrame).1.errorReports = 0 := by
  decide

/-- C6 (amended): a per-frame inference exception in the video loop is
caught and reported in-page exactly once without crashing the session,
but it is loop-fatal — the remaining frames are skipped and the capture
is not released; in the single-image case the inference exception
propagates uncaught (the only try block there wraps the detail panel,
not the predict call). -/
theorem C6_inference_error_paths (conf : ℚ) (m : YOLOModel) (f g : Frame)
    (rest : List Frame)
    (hbadLoop : m.candidates (resizeFrame f) = none)
    (hbadImg : m.candidates g = none) :
    ((infer_uploaded_video conf m true true true (f :: rest)).1.errorReports = 1 ∧
     (infer_uploaded_video conf m true true true (f :: rest)).2 = RunState.errored ∧
     (infer_uploaded_video conf m true true true (f :: rest)).1.inferenceCalls = 1 ∧
     (infer_uploaded_video conf m true true true (f :: rest)).1.releaseCalls = 0) ∧
    ((infer_uploaded_image conf m true true g).2 = ImageOutcome.uncaughtRaise ∧
     (infer_uploaded_image conf m true true g).1.errorReports = 0) := by
  constructor
  · rw [infer_uploaded_video_raise_run conf m f rest hbadLoop]
    exact ⟨rfl, rfl, rfl, rfl⟩
  · constructor
    · simp [infer_uploaded_image, YOLOModel.predict, hbadImg]
    · simp [infer_uploaded_image, YOLOModel.predict, hbadImg]

/-- Witness for C6: the always-raising model on a two-frame video and on
a single image. -/
theorem C6_inference_error_paths_witness :
    (raisingModel.candidates (resizeFrame sampleFrame) = none) ∧
    (raisingModel.candidates sampleFrame = none) ∧
    (((infer_uploaded_video (1 / 2) raisingModel true true true
          (sampleFrame :: [Frame.mk 1280 720 1])).1.errorReports = 1 ∧
      (infer_uploaded_video (1 / 2) raisingModel true true true
          (sampleFrame :: [Frame.mk 1280 720 1])).2 = RunState.errored ∧
      (infer_uploaded_video (1 / 2) raisingModel true true true
          (sampleFrame :: [Frame.mk 1280 720 1])).1.inferenceCalls = 1 ∧
      (infer_uploaded_video (1 / 2) raisingModel true true true
          (sampleFrame :: [Frame.mk 1280 720 1])).1.releaseCalls = 0) ∧
     ((infer_uploaded_image (1 / 2) raisingModel true true sampleFrame).2 =
        ImageOutcome.uncaughtRaise ∧
      (infer_uploaded_image (1 / 2) raisingModel true true sampleFrame).1.errorReports = 0)) :=
  ⟨by decide, by decide,
    C6_inference_error_paths (1 / 2) raisingModel sampleFrame sampleFrame
      [Frame.mk 1280 720 1] (by decide) (by decide)⟩

/-- C7 counterexample: a started run on an unopenable video performs
zero inference calls but also reports zero in-page errors and makes zero
release calls — the decode failure is a silent no-op, not a reported,
resource-releasing error. -/
theorem C7_counterexample :
    (infer_uploaded_video (1 / 2) stubModel true true false [sampleFrame]).1.inferenceCalls = 0 ∧
    (infer_uploaded_video (1 / 2) stubModel true true false [sampleFrame]).1.errorReports = 0 ∧
    (infer_uploaded_video (1 / 2) stubModel true true false [sampleFrame]).1.releaseCalls = 0 := by
  decide

/-- C7 (amended): when an uploaded video cannot be opened or decoded,
the frame loop never starts and zero inference calls occur; but no
in-page message is reported and the decoder resource is never released,
because the failed open does not raise and only raised exceptions reach
the reporting handler. -/
theorem C7_unopenable_video (conf : ℚ) (m : YOLOModel) (frames : List Frame) :
    (infer_uploaded_video conf m true true false frames).1.inferenceCalls = 0 ∧
    (infer_uploaded_video conf m true true false frames).1.errorReports = 0 ∧
    (infer_uploaded_video conf m true true false frames).1.releaseCalls = 0 ∧
    (infer_uploaded_video conf m true true false frames).1.openCalls = 1 ∧
    (infer_uploaded_video conf m true true false frames).2 = RunState.notStarted := by
  simp [infer_uploaded_video]

/-- The frame loop never opens a capture: the open count is whatever it
was when the loop was entered. -/
theorem frameLoop_openCalls (conf : ℚ) (m : YOLOModel) (frames : List Frame)
    (eff : Effects) :
    (frameLoop conf m frames eff).1.openCalls = eff.openCalls := by
  induction frames generalizing eff with
  | nil => simp [frameLoop]
  | cons f rest ih =>
    cases hc : m.candidates (resizeFrame f) with
    | none => simp [frameLoop, _display_detected_frames, YOLOModel.predict, hc]
    | some bs0 =>
      simp [frameLoop, _display_detected_frames, YOLOModel.predict, hc, ih]

/-- The inference-call count never decreases across the frame loop. -/
theorem frameLoop_inference_mono (conf : ℚ) (m : YOLOModel)
    (frames : List Frame) (eff : Effects) :
    eff.inferenceCalls ≤ (frameLoop conf m frames eff).1.inferenceCalls := by
  induction frames generalizing eff with
  | nil => simp [frameLoop]
  | cons f rest ih =>
    cases hc : m.candidates (resizeFrame f) with
    | none => simp [frameLoop, _display_detected_frames, YOLOModel.predict, hc]
    | some bs0 =>
      have hstep : frameLoop conf m (f :: rest) eff =
          frameLoop conf m rest
            { eff with
                inferenceCalls := eff.inferenceCalls + 1,
                confsUsed := eff.confsUsed ++ [conf],
                frameDisplayUpdates := eff.frameDisplayUpdates + 1,
                results := eff.results ++ [bs0.filter (fun b => decide (conf ≤ b.conf))] } := by
        simp [frameLoop, _display_detected_frames, YOLOModel.predict, hc]
      rw [hstep]
      have h2 := ih { eff with
          inferenceCalls := eff.inferenceCalls + 1,
          confsUsed := eff.confsUsed ++ [conf],
          frameDisplayUpdates := eff.frameDisplayUpdates + 1,
          results := eff.results ++ [bs0.filter (fun b => decide (conf ≤ b.conf))] }
      exact le_trans (Nat.le_succ _) (by simpa using h2)

/-- As soon as one read succeeds, at least one inference call happens,
whether or not that call raises. -/
theorem frameLoop_cons_inference (conf : ℚ) (m : YOLOModel) (f : Frame)
    (rest : List Frame) (eff : Effects) :
    eff.inferenceCalls + 1 ≤ (frameLoop conf m (f :: rest) eff).1.inferenceCalls := by
  cases hc : m.candidates (resizeFrame f) with
  | none => simp [frameLoop, _display_detected_frames, YOLOModel.predict, hc]
  | some bs0 =>
    have hstep : frameLoop conf m (f :: rest) eff =
        frameLoop conf m rest
          { eff with
              inferenceCalls := eff.inferenceCalls + 1,
              confsUsed := eff.confsUsed ++ [conf],
              frameDisplayUpdates := eff.frameDisplayUpdates + 1,
              results := eff.results ++ [bs0.filter (fun b => decide (conf ≤ b.conf))] } := by
      simp [frameLoop, _display_detected_frames, YOLOModel.predict, hc]
    rw [hstep]
    have h2 := frameLoop_inference_mono conf m rest { eff with
        inferenceCalls := eff.inferenceCalls + 1,
        confsUsed := eff.confsUsed ++ [conf],
        frameDisplayUpdates := eff.frameDisplayUpdates + 1,
        results := eff.results ++ [bs0.filter (fun b => decide (conf ≤ b.conf))] }
    simpa using h2

/-- The camera handler opens the device exactly once on every run,
regardless of the stop flag or the available frames. -/
theorem infer_uploaded_webcam_openCalls (conf : ℚ) (m : YOLOModel)
    (stopFlag : Bool) (frames : List Frame) :
    (infer_uploaded_webcam conf m stopFlag frames).1.openCalls = 1 := by
  cases hsf : stopFlag with
  | true => simp [infer_uploaded_webcam]
  | false =>
    have ho := frameLoop_openCalls conf m frames ⟨1, 0, 0, 0, 0, 0, [], []⟩
    simp only [infer_uploaded_webcam, Bool.false_eq_true, if_false]
    cases hl : frameLoop conf m frames ⟨1, 0, 0, 0, 0, 0, [], []⟩ with
    | mk eff ex =>
      rw [hl] at ho
      cases ex with
      | exhausted => simpa using ho
      | raised => simpa using ho

/-- With the stop flag unset, a camera whose first read succeeds makes
at least one inference call in the same run. -/
theorem infer_uploaded_webcam_starts (conf : ℚ) (m : YOLOModel) (f : Frame)
    (rest : List Frame) :
    1 ≤ (infer_uploaded_webcam conf m false (f :: rest)).1.inferenceCalls := by
  have h := frameLoop_cons_inference conf m f rest ⟨1, 0, 0, 0, 0, 0, [], []⟩
  simp only [infer_uploaded_webcam, Bool.false_eq_true, if_false]
  cases hl : frameLoop conf m (f :: rest) ⟨1, 0, 0, 0, 0, 0, [], []⟩ with
  | mk eff ex =>
    rw [hl] at h
    cases ex with
    | exhausted => simpa using h
    | raised => simpa using h

/-- C8: when loading the model fails, the load error is reported exactly
once, no usable model handle exists, zero inference calls happen (the
dispatch aborts on the undefined name `model` before reaching any
handler), and that abort is the uncaught NameError of the run. -/
theorem C8_load_failure (sliderValue : Nat) (src : DataSource) (m : YOLOModel)
    (uploaded pressed stopFlag openable : Bool) (frames : List Frame)
    (img : Frame) :
    (app_run false sliderValue src m uploaded pressed stopFlag openable frames img).loadErrorReports = 1 ∧
    (app_run false sliderValue src m uploaded pressed stopFlag openable frames img).handleLoaded = false ∧
    (app_run false sliderValue src m uploaded pressed stopFlag openable frames img).eff.inferenceCalls = 0 ∧
    (app_run false sliderValue src m uploaded pressed stopFlag openable frames img).nameErrorRaised = true := by
  simp [app_run, noEffects]

/-- Every confidence value an image run passes to predict is the one it
was called with. -/
theorem infer_uploaded_image_confs (conf : ℚ) (m : YOLOModel)
    (uploaded pressed : Bool) (img : Frame) :
    ∀ c ∈ (infer_uploaded_image conf m uploaded pressed img).1.confsUsed,
      c = conf := by
  cases hup : uploaded && pressed with
  | false => simp [infer_uploaded_image, hup, noEffects]
  | true =>
    cases hc : m.candidates img with
    | none => simp [infer_uploaded_image, hup, YOLOModel.predict, hc]
    | some bs0 => simp [infer_uploaded_image, hup, YOLOModel.predict, hc]

/-- Every confidence value a video run passes to predict is the one it
was called with. -/
theorem infer_uploaded_video_confs (conf : ℚ) (m : YOLOModel)
    (uploaded pressed openable : Bool) (frames : List Frame) :
    ∀ c ∈ (infer_uploaded_video conf m uploaded pressed openable frames).1.confsUsed,
      c = conf := by
  have hbase : ∀ c ∈ ([] : List ℚ), c = conf := by simp
  cases hup : uploaded && pressed with
  | false => simp [infer_uploaded_video, hup, noEffects]
  | true =>
    cases hop : openable with
    | false => simp [infer_uploaded_video, hup]
    | true =>
      have hloop := frameLoop_confs conf m frames ⟨1, 0, 0, 0, 0, 0, [], []⟩ hbase
      simp only [infer_uploaded_video, hup, if_true]
      cases hl : frameLoop conf m frames ⟨1, 0, 0, 0, 0, 0, [], []⟩ with
      | mk eff ex =>
        rw [hl] at hloop
        cases ex with
        | exhausted => simpa using hloop
        | raised => simpa using hloop

/-- Every confidence value a camera run passes to predict is the one it
was called with. -/
theorem infer_uploaded_webcam_confs (conf : ℚ) (m : YOLOModel)
    (stopFlag : Bool) (frames : List Frame) :
    ∀ c ∈ (infer_uploaded_webcam conf m stopFlag frames).1.confsUsed,
      c = conf := by
  have hbase : ∀ c ∈ ([] : List ℚ), c = conf := by simp
  cases hsf : stopFlag with
  | true => simp [infer_uploaded_webcam]
  | false =>
    have hloop := frameLoop_confs conf m frames ⟨1, 0, 0, 0, 0, 0, [], []⟩ hbase
    simp only [infer_uploaded_webcam, Bool.false_eq_true, if_false]
    cases hl : frameLoop conf m frames ⟨1, 0, 0, 0, 0, 0, [], []⟩ with
    | mk eff ex =>
      rw [hl] at hloop
      cases ex with
      | exhausted => simpa using hloop
      | raised => simpa using hloop

/-- C9: the user-facing confidence setting is an integer between 30 and
100; the value used is exactly that integer divided by 100, so it lies
in [0.30, 1.00], and every inference call of the session receives
exactly this value. -/
theorem C9_confidence_threshold (v : Nat) (h30 : 30 ≤ v) (h100 : v ≤ 100)
    (src : DataSource) (m : YOLOModel)
    (uploaded pressed stopFlag openable : Bool) (frames : List Frame)
    (img : Frame) :
    confidence v = (v : ℚ) / 100 ∧
    3 / 10 ≤ confidence v ∧
    confidence v ≤ 1 ∧
    ∀ c ∈ (app_run true v src m uploaded pressed stopFlag openable frames img).eff.confsUsed,
      c = confidence v := by
  refine ⟨rfl, ?_, ?_, ?_⟩
  · unfold confidence
    rw [le_div_iff₀ (by norm_num : (0 : ℚ) < 100)]
    calc (3 / 10 : ℚ) * 100 = 30 := by norm_num
    _ ≤ (v : ℚ) := by exact_mod_cast h30
  · unfold confidence
    rw [div_le_one (by norm_num : (0 : ℚ) < 100)]
    exact_mod_cast h100
  · cases src with
    | imageSrc =>
        simpa [app_run] using
          infer_uploaded_image_confs (confidence v) m uploaded pressed img
    | videoSrc =>
        simpa [app_run] using
          infer_uploaded_video_confs (confidence v) m uploaded pressed openable frames
    | cameraSrc =>
        simpa [app_run] using
          infer_uploaded_webcam_confs (confidence v) m stopFlag frames

/-- Witness for C9: slider value 50 on a started video run. -/
theorem C9_confidence_threshold_witness :
    30 ≤ 50 ∧ 50 ≤ 100 ∧
    (confidence 50 = (50 : ℚ) / 100 ∧
     3 / 10 ≤ confidence 50 ∧
     confidence 50 ≤ 1 ∧
     ∀ c ∈ (app_run true 50 DataSource.videoSrc demoModel true true false true
          [sampleFrame] sampleFrame).eff.confsUsed, c = confidence 50) :=
  ⟨by decide, by decide,
    C9_confidence_threshold 50 (by decide) (by decide) DataSource.videoSrc
      demoModel true true false true [sampleFrame] sampleFrame⟩

/-- C10: for the image and video sources, nothing happens (no inference
call, no display change, run not started) unless a file is uploaded and
the start button is pressed in that run; for the camera source the
device is opened exactly once on every run with no start gate, and with
the stop button unpressed a successful first read already triggers an
inference call. -/
theorem C10_gating (conf : ℚ) (m : YOLOModel)
    (uploaded pressed stopFlag openable : Bool) (frames rest : List Frame)
    (img f : Frame) (hng : uploaded = false ∨ pressed = false) :
    infer_uploaded_image conf m uploaded pressed img =
      (noEffects, ImageOutcome.notRun) ∧
    infer_uploaded_video conf m uploaded pressed openable frames =
      (noEffects, RunState.notStarted) ∧
    (infer_uploaded_webcam conf m stopFlag frames).1.openCalls = 1 ∧
    1 ≤ (infer_uploaded_webcam conf m false (f :: rest)).1.inferenceCalls := by
  have hup : (uploaded && pressed) = false := by
    rcases hng with h | h <;> simp [h]
  exact ⟨by simp [infer_uploaded_image, hup],
         by simp [infer_uploaded_video, hup],
         infer_uploaded_webcam_openCalls conf m stopFlag frames,
         infer_uploaded_webcam_starts conf m f rest⟩

/-- Witness for C10: nothing uploaded, button pressed, stop flag set,
one camera frame available. -/
theorem C10_gating_witness :
    (false = false ∨ true = false) ∧
    (infer_uploaded_image (1 / 2) demoModel false true sampleFrame =
       (noEffects, ImageOutcome.notRun) ∧
     infer_uploaded_video (1 / 2) demoModel false true true [sampleFrame] =
       (noEffects, RunState.notStarted) ∧
     (infer_uploaded_webcam (1 / 2) demoModel true [sampleFrame]).1.openCalls = 1 ∧
     1 ≤ (infer_uploaded_webcam (1 / 2) demoModel false
            (sampleFrame :: [])).1.inferenceCalls) :=
  ⟨Or.inl rfl,
    C10_gating (1 / 2) demoModel false true true true [sampleFrame] []
      sampleFrame sampleFrame (Or.inl rfl)⟩
